import Mathlib

/-!
Verification of the `womanalert` route-safety service (`src/main.py`).

The repository is a FastAPI application that geocodes two place names,
fetches alternative pedestrian routes, samples street-level imagery along
each route, classifies each sampled image as "safe" or "danger" through a
vision-language model, and aggregates the per-image verdicts into one
per-route verdict.

All network calls are modelled as oracles (pure functions supplied as
arguments); the pure orchestration logic of `main.py` is embedded
faithfully below: the Python string operations used on the classifier's
answer (`.strip().lower()`, the `in` substring test, `int(...)`), the
retry loop of `analyze_image`, the counting loop of
`classify_route_safety`, the stride sampling of
`get_mapillary_images_along_route`, the `asyncio.Lock` protecting the
classifier call, and the `/route` handler `get_route`.
-/

namespace WomanAlert

/-! ### Python string primitives

`main.py` applies `.strip().lower()` to the model's answer (line 96) and
then tests `"danger" in decision` (line 116).  We embed these Python
string operations on `List Char` / `String`. -/

/-- The characters Python's `str.strip()` removes (ASCII whitespace;
the model restricts to the ASCII range). -/
def pyWS (c : Char) : Bool :=
  c == ' ' || c == '\t' || c == '\n' || c == '\r' || c == '\x0b' || c == '\x0c'

/-- Python `str.strip()` on a character list: drop whitespace from both
ends. -/
def stripList (l : List Char) : List Char :=
  ((l.dropWhile pyWS).reverse.dropWhile pyWS).reverse

/-- Python `str.strip()`. -/
def pyStrip (s : String) : String := ⟨stripList s.data⟩

/-- Python `str.lower()` (ASCII case mapping, as in `Char.toLower`). -/
def pyLower (s : String) : String := ⟨s.data.map Char.toLower⟩

/-- `leadsWith pat l` holds when `pat` occurs at the very start of `l`. -/
def leadsWith : List Char → List Char → Bool
  | [], _ => true
  | _ :: _, [] => false
  | p :: ps, c :: cs => p == c && leadsWith ps cs

/-- `occursIn pat l` : `pat` occurs as a contiguous run somewhere in `l`
(Python's `pat in l` for strings). -/
def occursIn : List Char → List Char → Bool
  | pat, [] => leadsWith pat []
  | pat, c :: cs => leadsWith pat (c :: cs) || occursIn pat cs

/-- Python's substring operator `pat in s`. -/
def pyIn (pat s : String) : Bool := occursIn pat.data s.data

theorem leadsWith_iff (p l : List Char) :
    leadsWith p l = true ↔ ∃ b, l = p ++ b := by
  induction p generalizing l with
  | nil => simp [leadsWith]
  | cons x ps ih =>
    cases l with
    | nil => simp [leadsWith]
    | cons c cs =>
      simp only [leadsWith, Bool.and_eq_true, beq_iff_eq, ih, List.cons_append,
        List.cons.injEq]
      constructor
      · rintro ⟨rfl, b, rfl⟩; exact ⟨b, rfl, rfl⟩
      · rintro ⟨b, rfl, rfl⟩; exact ⟨rfl, b, rfl⟩

theorem occursIn_iff (p l : List Char) :
    occursIn p l = true ↔ ∃ a b, l = a ++ p ++ b := by
  induction l with
  | nil =>
    simp only [occursIn, leadsWith_iff]
    constructor
    · rintro ⟨b, h⟩; exact ⟨[], b, by simpa using h⟩
    · rintro ⟨a, b, h⟩
      rcases List.append_eq_nil.mp (List.append_eq_nil.mp h.symm).1 with ⟨rfl, rfl⟩
      exact ⟨b, by simpa using h⟩
  | cons c cs ih =>
    simp only [occursIn, Bool.or_eq_true, leadsWith_iff, ih]
    constructor
    · rintro (⟨b, h⟩ | ⟨a, b, rfl⟩)
      · exact ⟨[], b, by simpa using h⟩
      · exact ⟨c :: a, b, rfl⟩
    · rintro ⟨a, b, h⟩
      cases a with
      | nil => exact Or.inl ⟨b, by simpa using h⟩
      | cons a0 as =>
        rcases h with ⟨rfl, rfl⟩
        exact Or.inr ⟨as, b, rfl⟩

theorem occursIn_reverse (p l : List Char) :
    occursIn p l.reverse = occursIn p.reverse l := by
  rw [Bool.eq_iff_iff, occursIn_iff, occursIn_iff]
  constructor
  · rintro ⟨a, b, h⟩
    refine ⟨b.reverse, a.reverse, ?_⟩
    have := congrArg List.reverse h
    simpa [List.append_assoc] using this
  · rintro ⟨a, b, rfl⟩
    exact ⟨b.reverse, a.reverse, by simp [List.append_assoc]⟩

/-- `dropWhile` only removes a run of elements satisfying `q` from the
front. -/
theorem dropWhile_decomp (q : Char → Bool) (l : List Char) :
    ∃ w, l = w ++ l.dropWhile q ∧ ∀ c ∈ w, q c = true := by
  induction l with
  | nil => exact ⟨[], rfl, by simp⟩
  | cons c cs ih =>
    by_cases hc : q c = true
    · rcases ih with ⟨w, hw, hall⟩
      refine ⟨c :: w, ?_, ?_⟩
      · simp [List.dropWhile, hc, ← hw]
      · intro x hx
        rcases List.mem_cons.mp hx with rfl | hx
        · exact hc
        · exact hall x hx
    · refine ⟨[], ?_, by simp⟩
      simp [List.dropWhile, hc]

/-- Prepending a run of characters on which the first pattern character
fails does not create or destroy an occurrence (the pattern is nonempty
and its head avoids the run). -/
theorem occursIn_cons_of_ne (d : Char) (ps : List Char) (c : Char)
    (cs : List Char) (hne : d ≠ c) :
    occursIn (d :: ps) (c :: cs) = occursIn (d :: ps) cs := by
  simp only [occursIn, leadsWith, Bool.or_eq_true, Bool.and_eq_true, beq_iff_eq]
  rw [Bool.eq_iff_iff]
  simp only [Bool.or_eq_true, Bool.and_eq_true, beq_iff_eq]
  constructor
  · rintro (⟨rfl, _⟩ | h)
    · exact absurd rfl hne
    · exact h
  · exact Or.inr

theorem occursIn_append_run (d : Char) (ps w l : List Char)
    (hd : pyWS d = false) (hw : ∀ c ∈ w, pyWS c = true) :
    occursIn (d :: ps) (w ++ l) = occursIn (d :: ps) l := by
  induction w with
  | nil => rfl
  | cons c cs ih =>
    have hc : pyWS c = true := hw c (List.mem_cons_self c cs)
    have hne : d ≠ c := by
      intro h; rw [h, hc] at hd; cases hd
    rw [List.cons_append, occursIn_cons_of_ne d ps c (cs ++ l) hne]
    exact ih fun x hx => hw x (List.mem_cons_of_mem c hx)

theorem occursIn_dropWhile (d : Char) (ps l : List Char)
    (hd : pyWS d = false) :
    occursIn (d :: ps) (l.dropWhile pyWS) = occursIn (d :: ps) l := by
  rcases dropWhile_decomp pyWS l with ⟨w, hw, hall⟩
  conv_rhs => rw [hw]
  exact (occursIn_append_run d ps w _ hd hall).symm

theorem occursIn_eq_reverse (p l : List Char) :
    occursIn p l = occursIn p.reverse l.reverse := by
  rw [occursIn_reverse p.reverse l, List.reverse_reverse]

/-- Appending a whitespace run on the right does not change whether
`"danger"` occurs. -/
theorem occursIn_danger_append_right (w l : List Char)
    (hw : ∀ c ∈ w, pyWS c = true) :
    occursIn "danger".data (l ++ w) = occursIn "danger".data l := by
  have hrev : "danger".data.reverse = 'r' :: ['e', 'g', 'n', 'a', 'd'] := by decide
  rw [occursIn_eq_reverse, List.reverse_append, hrev,
    occursIn_append_run 'r' ['e', 'g', 'n', 'a', 'd'] w.reverse l.reverse
      (by decide) (fun c hc => hw c (List.mem_reverse.mp hc)),
    ← hrev, ← occursIn_eq_reverse]

/-- Prepending a whitespace run on the left does not change whether
`"danger"` occurs. -/
theorem occursIn_danger_append_left (w l : List Char)
    (hw : ∀ c ∈ w, pyWS c = true) :
    occursIn "danger".data (w ++ l) = occursIn "danger".data l := by
  have hd : "danger".data = 'd' :: ['a', 'n', 'g', 'e', 'r'] := by decide
  rw [hd]
  exact occursIn_append_run 'd' ['a', 'n', 'g', 'e', 'r'] w l (by decide) hw

/-- `strip` removes a whitespace run from each end of the string. -/
theorem stripList_decomp (l : List Char) :
    ∃ w1 w2, l = w1 ++ stripList l ++ w2 ∧ (∀ c ∈ w1, pyWS c = true) ∧
      ∀ c ∈ w2, pyWS c = true := by
  rcases dropWhile_decomp pyWS l with ⟨w1, hw1, hall1⟩
  rcases dropWhile_decomp pyWS (l.dropWhile pyWS).reverse with ⟨w2r, hw2, hall2⟩
  refine ⟨w1, w2r.reverse, ?_, hall1, fun c hc => hall2 c (List.mem_reverse.mp hc)⟩
  have hmid : l.dropWhile pyWS = stripList l ++ w2r.reverse := by
    have := congrArg List.reverse hw2
    simpa [stripList] using this
  conv_lhs => rw [hw1, hmid]
  exact (List.append_assoc w1 (stripList l) w2r.reverse).symm

/-- ASCII lower-casing maps whitespace to whitespace. -/
theorem pyWS_toLower {c : Char} (h : pyWS c = true) :
    pyWS (Char.toLower c) = true := by
  simp only [pyWS, Bool.or_eq_true, beq_iff_eq] at h
  rcases h with (((((rfl | rfl) | rfl) | rfl) | rfl) | rfl) <;> decide

/-- Stripping whitespace before lower-casing does not change whether the
lower-cased text contains `"danger"`. -/
theorem occursIn_danger_stripList_map (l : List Char) :
    occursIn "danger".data ((stripList l).map Char.toLower) =
      occursIn "danger".data (l.map Char.toLower) := by
  rcases stripList_decomp l with ⟨w1, w2, hl, h1, h2⟩
  conv_rhs => rw [hl]
  rw [List.map_append, List.map_append, List.append_assoc,
    occursIn_danger_append_left (w1.map Char.toLower) _
      (by intro c hc
          rcases List.mem_map.mp hc with ⟨x, hx, rfl⟩
          exact pyWS_toLower (h1 x hx)),
    occursIn_danger_append_right (w2.map Char.toLower) _
      (by intro c hc
          rcases List.mem_map.mp hc with ⟨x, hx, rfl⟩
          exact pyWS_toLower (h2 x hx))]

/-! ### The per-image verdict (`analyze_image` success path + the
counting branch of `classify_route_safety`)

`main.py` line 96 returns `content.strip().lower()`; lines 116–119 then
branch on `"danger" in decision`. -/

/-- The decision string `analyze_image` returns on a successful call
(line 96 of `main.py`): `content.strip().lower()`. -/
def imageDecision (content : String) : String := pyLower (pyStrip content)

/-- The verdict one image contributes in `classify_route_safety`
(lines 116–119 of `main.py`): `"danger"` when `"danger" in decision`,
`"safe"` otherwise. -/
def perImageVerdict (content : String) : String :=
  if pyIn "danger" (imageDecision content) then "danger" else "safe"

theorem pyIn_danger_imageDecision (content : String) :
    pyIn "danger" (imageDecision content) = pyIn "danger" (pyLower content) := by
  show occursIn "danger".data ((stripList content.data).map Char.toLower) =
    occursIn "danger".data (content.data.map Char.toLower)
  exact occursIn_danger_stripList_map content.data

/-! ### Mapillary image records and `classify_route_safety`

An image record from the Mapillary API (`main.py` requests the fields
`id,computed_geometry,thumb_1024_url`).  Only the thumbnail URL is read
by the code (`img.get("thumb_1024_url")`); a missing key yields Python
`None`, modelled as `none`. -/

structure MapImage where
  id : String
  thumb_1024_url : Option String
  deriving DecidableEq, Repr

/-- Line 112–114 of `main.py`: `image_url = img.get("thumb_1024_url");
if not image_url: continue`.  The URL is usable exactly when it is
present and truthy (non-empty). -/
def usableUrl (img : MapImage) : Option String :=
  match img.thumb_1024_url with
  | none => none
  | some s => if s = "" then none else some s

/-- The counting loop of `classify_route_safety` (lines 111–120),
threaded through the explicit `safe_count` / `danger_count`
accumulators.  `dec url` is the decision string `analyze_image`
returns for that URL (the external model's answer, already
stripped/lower-cased; deterministic per URL). -/
def classifyLoop (dec : String → String) :
    List MapImage → Nat → Nat → Nat × Nat
  | [], s, d => (s, d)
  | img :: rest, s, d =>
    match usableUrl img with
    | none => classifyLoop dec rest s d
    | some url =>
      if pyIn "danger" (dec url) then classifyLoop dec rest s (d + 1)
      else classifyLoop dec rest (s + 1) d

/-- `classify_route_safety` (lines 106–122 of `main.py`): analyze at
most the first 5 images (`images[:max_images]` with `max_images = 5`),
count safe/danger verdicts, and return
`"safe" if safe_count >= danger_count else "danger"`. -/
def classify_route_safety (dec : String → String) (images : List MapImage) :
    String :=
  let counts := classifyLoop dec (images.take 5) 0 0
  if counts.2 ≤ counts.1 then "safe" else "danger"

/-- Specification-side count of analyzable images whose decision string
contains `"danger"`. -/
def dangerCount (dec : String → String) (images : List MapImage) : Nat :=
  (images.filterMap usableUrl).countP fun url => pyIn "danger" (dec url)

/-- Specification-side count of analyzable images whose decision string
does not contain `"danger"`. -/
def safeCount (dec : String → String) (images : List MapImage) : Nat :=
  (images.filterMap usableUrl).countP fun url => !pyIn "danger" (dec url)

theorem classifyLoop_eq (dec : String → String) (l : List MapImage)
    (s d : Nat) :
    classifyLoop dec l s d = (s + safeCount dec l, d + dangerCount dec l) := by
  induction l generalizing s d with
  | nil => simp [classifyLoop, safeCount, dangerCount]
  | cons img rest ih =>
    cases hu : usableUrl img with
    | none =>
      simp [classifyLoop, hu, safeCount, dangerCount, List.filterMap_cons, ih]
    | some url =>
      simp only [classifyLoop, hu]
      by_cases hd : pyIn "danger" (dec url) = true
      · rw [if_pos hd, ih]
        simp [safeCount, dangerCount, List.filterMap_cons, hu,
          List.countP_cons, hd]
        omega
      · rw [if_neg hd, ih]
        simp [safeCount, dangerCount, List.filterMap_cons, hu,
          List.countP_cons, hd]
        omega

theorem classify_route_safety_eq (dec : String → String)
    (images : List MapImage) :
    classify_route_safety dec images =
      if dangerCount dec (images.take 5) ≤ safeCount dec (images.take 5)
      then "safe" else "danger" := by
  simp [classify_route_safety, classifyLoop_eq]

/-! ### `analyze_image` (lines 74–104): retry loop under HTTP 429

The outbound POST is modelled by an oracle mapping the attempt number to
the provider's response.  `int(retry_after)` is modelled by `pyInt`,
Python's `int()` on strings: surrounding whitespace, an optional sign,
then decimal digits with single grouping underscores. -/

/-- Digit run of a Python integer literal (after the first digit),
allowing single `_` separators between digits. -/
def pyDigitsGo (acc : Nat) : List Char → Option Nat
  | [] => some acc
  | '_' :: d :: ds =>
    if d.isDigit then pyDigitsGo (10 * acc + (d.toNat - 48)) ds else none
  | '_' :: [] => none
  | c :: cs =>
    if c.isDigit then pyDigitsGo (10 * acc + (c.toNat - 48)) cs else none

/-- Unsigned part of Python `int()`: at least one digit. -/
def pyIntUnsigned : List Char → Option Nat
  | [] => none
  | c :: cs => if c.isDigit then pyDigitsGo (c.toNat - 48) cs else none

/-- Python `int(s)` for a string: `.error ()` models the `ValueError`
raised on a malformed literal. -/
def pyInt (s : String) : Except Unit Int :=
  match stripList s.data with
  | '+' :: rest =>
    match pyIntUnsigned rest with
    | some n => .ok (Int.ofNat n)
    | none => .error ()
  | '-' :: rest =>
    match pyIntUnsigned rest with
    | some n => .ok (-(Int.ofNat n : Int))
    | none => .error ()
  | l =>
    match pyIntUnsigned l with
    | some n => .ok (Int.ofNat n)
    | none => .error ()

/-- Line 99–100 of `main.py`:
`retry_after = e.response.headers.get("Retry-After")` followed by
`wait = int(retry_after) if retry_after else 5`.  The header is falsy
when absent (`None`) or the empty string; otherwise `int()` runs and may
raise (`.error ()`). -/
def waitFor (retryAfter : Option String) : Except Unit Int :=
  match retryAfter with
  | none => .ok 5
  | some s => if s = "" then .ok 5 else pyInt s

/-- One provider response: a successful body whose
`choices[0].message.content` is `content`, or a response on which
`raise_for_status()` raises `HTTPStatusError` with the given status
(4xx/5xx) and optional `Retry-After` header. -/
inductive ApiResp where
  | ok (content : String)
  | httpErr (status : Nat) (retryAfter : Option String)
  deriving DecidableEq, Repr

/-- How a call to `analyze_image` can end. -/
inductive AnalyzeResult where
  /-- Line 96: the stripped, lower-cased answer is returned. -/
  | verdict (v : String)
  /-- Line 104: `HTTPException(status_code=429, ...)` after the retry
  budget is exhausted. -/
  | tooMany
  /-- Line 103: a non-429 `HTTPStatusError` is re-raised. -/
  | httpFailure (status : Nat) (retryAfter : Option String)
  /-- Line 100: `int(retry_after)` raises an unhandled `ValueError`. -/
  | valueError
  deriving DecidableEq, Repr

/-- The `for attempt in range(retries)` loop of `analyze_image`
(lines 91–104); also records each `asyncio.sleep(wait)` duration, in
order. -/
def analyzeGo (oracle : Nat → ApiResp) : Nat → Nat → AnalyzeResult × List Int
  | _, 0 => (.tooMany, [])
  | attempt, r + 1 =>
    match oracle attempt with
    | .ok content => (.verdict (imageDecision content), [])
    | .httpErr status ra =>
      if status = 429 then
        match waitFor ra with
        | .error _ => (.valueError, [])
        | .ok w =>
          let rest := analyzeGo oracle (attempt + 1) r
          (rest.1, w :: rest.2)
      else (.httpFailure status ra, [])

/-- `analyze_image` (lines 74–104 of `main.py`), with its default retry
budget of 3.  Returns the outcome and the list of sleeps performed. -/
def analyze_image (oracle : Nat → ApiResp) (retries : Nat := 3) :
    AnalyzeResult × List Int :=
  analyzeGo oracle 0 retries

/-! ### The imagery sampler (lines 42–70)

`get_mapillary_images_along_route` iterates
`for i in range(0, len(coords_list), step)` and extends the image list
with the per-point query result.  The per-point query
(`get_mapillary_image_near_point`) is an oracle from a coordinate to the
`data` list of the API response; the request carries `limit: 1`, so the
honest provider returns at most one record. -/

/-- Python `range(start, stop, step)` for a positive step, materialized
as a list.  `fuel` bounds the recursion by `stop - start`. -/
def pyRangeAux (step : Nat) : Nat → Nat → Nat → List Nat
  | 0, _, _ => []
  | fuel + 1, start, stop =>
    if start < stop then start :: pyRangeAux step fuel (start + step) stop
    else []

/-- Python `range(start, stop, step)` (positive `step`; Python raises on
`step = 0`, which all theorems below exclude by hypothesis). -/
def pyRange (start stop step : Nat) : List Nat :=
  pyRangeAux step (stop - start) start stop

/-- `get_mapillary_image_near_point` (lines 42–56): one imagery query
near one coordinate, returning the response's `data` list.  The query
itself is the oracle; the request carries `limit: 1`. -/
def get_mapillary_image_near_point {π : Type} (oracle : π → List MapImage)
    (c : π) : List MapImage :=
  oracle c

/-- `get_mapillary_images_along_route` (lines 58–70): visit every
`step`-th coordinate starting at index 0 and concatenate, in sampling
order, the images found near each.  (`images.extend(nearby)` guarded by
`if nearby:` is extension by a possibly empty list.) -/
def get_mapillary_images_along_route {π : Type} (coords_list : List π)
    (step : Nat) (oracle : π → List MapImage) : List MapImage :=
  (pyRange 0 coords_list.length step).flatMap fun i =>
    match coords_list[i]? with
    | some c => get_mapillary_image_near_point oracle c
    | none => []

theorem mem_pyRangeAux (step : Nat) (hstep : 0 < step) :
    ∀ (fuel start stop : Nat), stop - start ≤ fuel →
      ∀ i, i ∈ pyRangeAux step fuel start stop ↔
        ∃ k, i = start + k * step ∧ i < stop := by
  intro fuel
  induction fuel with
  | zero =>
    intro start stop hf i
    simp only [pyRangeAux, List.not_mem_nil, false_iff]
    rintro ⟨k, rfl, hlt⟩
    omega
  | succ fuel ih =>
    intro start stop hf i
    by_cases hlt : start < stop
    · rw [pyRangeAux, if_pos hlt]
      have hrec := ih (start + step) stop (by omega) i
      simp only [List.mem_cons, hrec]
      constructor
      · rintro (rfl | ⟨k, rfl, hk⟩)
        · exact ⟨0, by omega, hlt⟩
        · exact ⟨k + 1, by ring, hk⟩
      · rintro ⟨k, rfl, hk⟩
        cases k with
        | zero => left; omega
        | succ k => right; exact ⟨k, by ring, hk⟩
    · rw [pyRangeAux, if_neg hlt]
      simp only [List.not_mem_nil, false_iff]
      rintro ⟨k, rfl, hk⟩
      omega

theorem mem_pyRange (stop step : Nat) (hstep : 0 < step) (i : Nat) :
    i ∈ pyRange 0 stop step ↔ step ∣ i ∧ i < stop := by
  rw [pyRange, mem_pyRangeAux step hstep (stop - 0) 0 stop (by omega) i]
  constructor
  · rintro ⟨k, rfl, hk⟩
    exact ⟨⟨k, by ring⟩, hk⟩
  · rintro ⟨⟨k, rfl⟩, hk⟩
    exact ⟨k, by ring, hk⟩

theorem length_flatMap_le_of_single {α β : Type} (l : List α)
    (f : α → List β) (h : ∀ x ∈ l, (f x).length ≤ 1) :
    (l.flatMap f).length ≤ l.length := by
  induction l with
  | nil => simp
  | cons x xs ih =>
    rw [List.flatMap_cons, List.length_append, List.length_cons]
    have hx := h x (List.mem_cons_self x xs)
    have := ih fun y hy => h y (List.mem_cons_of_mem x hy)
    omega

/-! ### The global classifier lock (line 27, used at line 89)

`openrouter_lock = asyncio.Lock()` is a single process-wide lock, and
`analyze_image` wraps its whole HTTP-call/retry loop in
`async with openrouter_lock:`.  We model the cooperative scheduler as a
transition system over the lock and the classification tasks: a task is
`critical` exactly while it holds the lock, i.e. while its
classification call (including retries) is in flight. -/

/-- What one classification task is doing. -/
inductive TaskPhase where
  /-- Not yet at `async with openrouter_lock` (line 89). -/
  | idle
  /-- Inside the `async with` block: its classification call, with
  retries, is in flight (lines 90–104). -/
  | critical
  /-- Past the block; the lock has been released. -/
  | done
  deriving DecidableEq, Repr

/-- Lock plus per-task phase, for any type `T` of task identifiers. -/
structure LockState (T : Type) where
  held : Option T
  phase : T → TaskPhase

/-- All tasks start before line 89 and the lock is free. -/
def lockInit (T : Type) : LockState T := ⟨none, fun _ => .idle⟩

/-- `asyncio.Lock` semantics for the code's usage: entering the
`async with` block requires the lock to be free (acquire), and leaving
the block releases it. -/
inductive LockStep {T : Type} [DecidableEq T] :
    LockState T → LockState T → Prop where
  | acquire (t : T) (s : LockState T) :
      s.held = none → s.phase t = .idle →
      LockStep s ⟨some t, Function.update s.phase t .critical⟩
  | release (t : T) (s : LockState T) :
      s.held = some t → s.phase t = .critical →
      LockStep s ⟨none, Function.update s.phase t .done⟩

/-- States reachable from the initial state by the scheduler. -/
inductive LockReach {T : Type} [DecidableEq T] : LockState T → Prop where
  | init : LockReach (lockInit T)
  | step {s s' : LockState T} : LockReach s → LockStep s s' → LockReach s'

theorem lockReach_held_of_critical {T : Type} [DecidableEq T]
    {s : LockState T} (hr : LockReach s) :
    ∀ t, s.phase t = .critical → s.held = some t := by
  induction hr with
  | init => intro t ht; cases ht
  | @step s s' hr hs ih =>
    cases hs with
    | acquire t0 s0 hheld hidle =>
      intro t ht
      by_cases he : t = t0
      · subst he; rfl
      · exfalso
        rw [show (⟨some t0, Function.update s.phase t0 .critical⟩ :
            LockState T).phase t = s.phase t from Function.update_noteq he _ _]
          at ht
        have := ih t ht
        rw [hheld] at this
        cases this
    | release t0 s0 hheld hcrit =>
      intro t ht
      exfalso
      by_cases he : t = t0
      · subst he
        rw [show (⟨none, Function.update s.phase t .done⟩ :
            LockState T).phase t = .done from Function.update_same _ _ _] at ht
        cases ht
      · rw [show (⟨none, Function.update s.phase t0 .done⟩ :
            LockState T).phase t = s.phase t from Function.update_noteq he _ _]
          at ht
        have := ih t ht
        rw [hheld] at this
        have ht0 : t = t0 := by injection this with h; exact h.symm
        exact he ht0

/-! ### The `/route` handler (lines 130–179)

`get_route` geocodes both places, fails fast with
`{"error": "Lieu introuvable"}` when either is unresolved, otherwise
fetches alternative paths and, for each, samples imagery at stride 15,
classifies it, and shapes a response entry.  FastAPI returns a plain
`dict` with HTTP status 200.  External services are oracles bundled in
`RouteOracles`; `κ` is the coordinate-scalar payload, `π` a raw route
coordinate, `γ` the opaque `path["points"]` geometry payload. -/

/-- One element of `route_data["paths"]` as read by the handler. -/
structure GHPath (π γ : Type) where
  /-- `path["points"]`, returned verbatim as `"geometry"`. -/
  points : γ
  /-- `path["points"]["coordinates"]`. -/
  coordinates : List π
  /-- `path.get("distance")`. -/
  distance : Option Int
  /-- `path.get("time")`. -/
  time : Option Int

/-- The external services the handler awaits. -/
structure RouteOracles (κ π γ : Type) where
  /-- `geocode` (lines 31–40): first Nominatim hit or `None`. -/
  geocode : String → Option (κ × κ)
  /-- `route_data["paths"]` from GraphHopper. -/
  paths : List (GHPath π γ)
  /-- Per-point Mapillary query result (`data` list). -/
  imagery : π → List MapImage
  /-- Decision string `analyze_image` returns for a given image URL. -/
  dec : String → String

/-- One entry of the `"routes"` array in the response. -/
structure RouteEntry (γ : Type) where
  geometry : γ
  distance : Option Int
  time : Option Int
  status : String
  images : List (Option String)

/-- Body of the `/route` response. -/
inductive RouteBody (κ γ : Type) where
  /-- `{"error": "Lieu introuvable"}`. -/
  | err (msg : String)
  /-- `{"routes": ..., "start": ..., "end": ...}`. -/
  | ok (routes : List (RouteEntry γ)) (startPt : κ × κ) (endPt : κ × κ)

/-- An HTTP response: status code plus JSON body. -/
structure HttpResponse (B : Type) where
  status : Nat
  body : B

/-- The response entry built for one path (lines 162–173): sample
imagery at stride 15, classify, and attach the first five thumbnail
URLs (`[img.get("thumb_1024_url") for img in images[:5]]`). -/
def routeEntryOf {κ π γ : Type} (O : RouteOracles κ π γ) (p : GHPath π γ) :
    RouteEntry γ :=
  let images := get_mapillary_images_along_route p.coordinates 15 O.imagery
  { geometry := p.points
    distance := p.distance
    time := p.time
    status := classify_route_safety O.dec images
    images := (images.take 5).map fun img => img.thumb_1024_url }

/-- `get_route` (lines 130–179 of `main.py`).  A plain-`dict` return is
an HTTP 200 under FastAPI. -/
def get_route {κ π γ : Type} (O : RouteOracles κ π γ)
    (start_place end_place : String) : HttpResponse (RouteBody κ γ) :=
  match O.geocode start_place, O.geocode end_place with
  | some sc, some ec => ⟨200, .ok (O.paths.map (routeEntryOf O)) sc ec⟩
  | _, _ => ⟨200, .err "Lieu introuvable"⟩

/-! ## Claim theorems -/

/-- C1: for every list of analyzed per-image verdicts (at most 5
images), `classify_route_safety` returns `"danger"` iff strictly more
images were classified `"danger"` than `"safe"`; a tie, and in
particular an all-safe list, yields `"safe"`. -/
theorem classify_route_safety_majority (dec : String → String)
    (images : List MapImage) (h : images.length ≤ 5) :
    (classify_route_safety dec images = "danger" ↔
      safeCount dec images < dangerCount dec images) ∧
    (dangerCount dec images = safeCount dec images →
      classify_route_safety dec images = "safe") ∧
    (dangerCount dec images = 0 →
      classify_route_safety dec images = "safe") := by
  have htake : images.take 5 = images := List.take_of_length_le h
  rw [classify_route_safety_eq, htake]
  by_cases hc : dangerCount dec images ≤ safeCount dec images
  · rw [if_pos hc]
    exact ⟨⟨fun h' => absurd h' (by decide), fun h' => absurd hc (by omega)⟩,
      fun _ => rfl, fun _ => rfl⟩
  · rw [if_neg hc]
    exact ⟨⟨fun _ => by omega, fun _ => rfl⟩,
      fun he => absurd hc (by omega), fun h0 => absurd hc (by omega)⟩

theorem classify_route_safety_majority_witness :
    classify_route_safety (fun _ => "i think it is safe")
      [⟨"a", some "u1"⟩, ⟨"b", some "u2"⟩] = "safe" :=
  (classify_route_safety_majority (fun _ => "i think it is safe")
    [⟨"a", some "u1"⟩, ⟨"b", some "u2"⟩] (by decide)).2.2 (by decide)

/-- C2: `classify_route_safety` reads only the first 5 entries of the
image list; two lists agreeing on their first 5 entries get the same
verdict. -/
theorem classify_route_safety_first_five (dec : String → String)
    (l1 l2 : List MapImage) (h : l1.take 5 = l2.take 5) :
    classify_route_safety dec l1 = classify_route_safety dec l2 := by
  unfold classify_route_safety
  rw [h]

theorem classify_route_safety_first_five_witness :
    classify_route_safety (fun u => u)
      [⟨"1", some "ok"⟩, ⟨"2", some "ok"⟩, ⟨"3", some "ok"⟩,
       ⟨"4", some "ok"⟩, ⟨"5", some "ok"⟩, ⟨"6", some "danger"⟩] =
    classify_route_safety (fun u => u)
      [⟨"1", some "ok"⟩, ⟨"2", some "ok"⟩, ⟨"3", some "ok"⟩,
       ⟨"4", some "ok"⟩, ⟨"5", some "ok"⟩] :=
  classify_route_safety_first_five (fun u => u) _ _ (by decide)

/-- C3: the per-image verdict is `"danger"` exactly when the lower-cased
model answer contains the substring `"danger"`; all other answers,
including `""` and `"unclear"`, coerce to `"safe"` (fail-open). -/
theorem perImageVerdict_danger_iff :
    ∀ content : String,
      (perImageVerdict content = "danger" ↔
        pyIn "danger" (pyLower content) = true) ∧
      perImageVerdict "" = "safe" ∧ perImageVerdict "unclear" = "safe" ∧
      perImageVerdict "DANGER" = "danger" := by
  intro content
  refine ⟨?_, by decide, by decide, by decide⟩
  unfold perImageVerdict
  rw [pyIn_danger_imageDecision]
  by_cases hc : pyIn "danger" (pyLower content) = true
  · rw [if_pos hc]
    exact ⟨fun _ => hc, fun _ => rfl⟩
  · rw [if_neg hc]
    exact ⟨fun h => absurd h (by decide), fun h => absurd h hc⟩

theorem perImageVerdict_danger_iff_witness :
    perImageVerdict " DANGER ahead " = "danger" :=
  (perImageVerdict_danger_iff " DANGER ahead ").1.mpr (by decide)

/-- C6: an empty image list, and any image list in which no entry has a
usable thumbnail URL, is classified `"safe"`. -/
theorem classify_route_safety_vacuous (dec : String → String)
    (images : List MapImage) (h : ∀ img ∈ images, usableUrl img = none) :
    classify_route_safety dec [] = "safe" ∧
    classify_route_safety dec images = "safe" := by
  refine ⟨rfl, ?_⟩
  rw [classify_route_safety_eq]
  have hnil : (images.take 5).filterMap usableUrl = [] :=
    List.filterMap_eq_nil_iff.mpr fun a ha => h a (List.take_subset 5 images ha)
  simp [dangerCount, safeCount, hnil]

theorem classify_route_safety_vacuous_witness :
    classify_route_safety (fun _ => "danger") [] = "safe" ∧
    classify_route_safety (fun _ => "danger")
      [⟨"x", none⟩, ⟨"y", some ""⟩] = "safe" :=
  classify_route_safety_vacuous (fun _ => "danger")
    [⟨"x", none⟩, ⟨"y", some ""⟩] (by decide)

theorem analyzeGo_ok (oracle : Nat → ApiResp) (attempt r : Nat)
    (content : String) (h : oracle attempt = .ok content) :
    analyzeGo oracle attempt (r + 1) =
      (.verdict (imageDecision content), []) := by
  simp [analyzeGo, h]

theorem analyzeGo_429 (oracle : Nat → ApiResp) (attempt r : Nat)
    (ra : Option String) (w : Int) (h : oracle attempt = .httpErr 429 ra)
    (hw : waitFor ra = .ok w) :
    analyzeGo oracle attempt (r + 1) =
      ((analyzeGo oracle (attempt + 1) r).1,
        w :: (analyzeGo oracle (attempt + 1) r).2) := by
  simp [analyzeGo, h, hw]

theorem analyzeGo_429_bad (oracle : Nat → ApiResp) (attempt r : Nat)
    (ra : Option String) (h : oracle attempt = .httpErr 429 ra)
    (hw : waitFor ra = .error ()) :
    analyzeGo oracle attempt (r + 1) = (.valueError, []) := by
  simp [analyzeGo, h, hw]

/-- C4: with retry budget 3, three consecutive 429s end in the
rate-limit failure (`HTTPException 429`) and never in a verdict; two
429s followed by a success return the successful verdict.  Each retry
first sleeps the parsed `Retry-After` value when the header carries one,
and the fixed 5-second fallback when the header is absent. -/
theorem analyze_image_retry (oracle : Nat → ApiResp) (ra0 ra1 : Option String)
    (w0 w1 : Int) (h0 : oracle 0 = .httpErr 429 ra0)
    (h1 : oracle 1 = .httpErr 429 ra1) (hw0 : waitFor ra0 = .ok w0)
    (hw1 : waitFor ra1 = .ok w1) :
    (∀ ra2 w2, oracle 2 = .httpErr 429 ra2 → waitFor ra2 = .ok w2 →
        analyze_image oracle 3 = (.tooMany, [w0, w1, w2]) ∧
        ∀ v ws, analyze_image oracle 3 ≠ (.verdict v, ws)) ∧
    (∀ content, oracle 2 = .ok content →
        analyze_image oracle 3 = (.verdict (imageDecision content), [w0, w1])) ∧
    waitFor none = .ok 5 ∧
    (∀ s n, pyInt s = .ok n → waitFor (some s) = .ok n) := by
  have s0 : analyze_image oracle 3 =
      ((analyzeGo oracle 1 2).1, w0 :: (analyzeGo oracle 1 2).2) :=
    analyzeGo_429 oracle 0 2 ra0 w0 h0 hw0
  have s1 : analyzeGo oracle 1 2 =
      ((analyzeGo oracle 2 1).1, w1 :: (analyzeGo oracle 2 1).2) :=
    analyzeGo_429 oracle 1 1 ra1 w1 h1 hw1
  have e2 : analyze_image oracle 3 =
      ((analyzeGo oracle 2 1).1, w0 :: w1 :: (analyzeGo oracle 2 1).2) := by
    rw [s0, s1]
  refine ⟨?_, ?_, rfl, ?_⟩
  · intro ra2 w2 h2 hw2
    have s2 : analyzeGo oracle 2 1 = (.tooMany, [w2]) :=
      analyzeGo_429 oracle 2 0 ra2 w2 h2 hw2
    have hfinal : analyze_image oracle 3 = (.tooMany, [w0, w1, w2]) := by
      rw [e2, s2]
    refine ⟨hfinal, ?_⟩
    intro v ws h
    rw [hfinal] at h
    injection h with hres _
    exact AnalyzeResult.noConfusion hres
  · intro content h2
    have s2 : analyzeGo oracle 2 1 = (.verdict (imageDecision content), []) :=
      analyzeGo_ok oracle 2 0 content h2
    rw [e2, s2]
  · intro s n h
    by_cases hs : s = ""
    · subst hs
      exact Except.noConfusion
        ((rfl : pyInt "" = Except.error ()).symm.trans h)
    · show (if s = "" then Except.ok 5 else pyInt s) = Except.ok n
      rw [if_neg hs]
      exact h

theorem analyze_image_retry_witness :
    analyze_image
      (fun n => if n = 0 then ApiResp.httpErr 429 (some "7")
        else if n = 1 then ApiResp.httpErr 429 none
        else ApiResp.ok " DANGER ") 3 =
      (AnalyzeResult.verdict "danger", [7, 5]) :=
  (analyze_image_retry
    (fun n => if n = 0 then ApiResp.httpErr 429 (some "7")
      else if n = 1 then ApiResp.httpErr 429 none
      else ApiResp.ok " DANGER ")
    (some "7") none 7 5 rfl rfl rfl rfl).2.1 " DANGER " rfl

/-- C5: at most one classification call is in flight at any instant:
in every reachable state of the lock transition system, any two tasks
inside the `async with openrouter_lock` block (their classification
call, retries included, in flight) are the same task. -/
theorem openrouter_lock_mutual_exclusion {T : Type} [DecidableEq T]
    {s : LockState T} (hr : LockReach s) (t1 t2 : T)
    (h1 : s.phase t1 = .critical) (h2 : s.phase t2 = .critical) :
    t1 = t2 := by
  have e1 := lockReach_held_of_critical hr t1 h1
  have e2 := lockReach_held_of_critical hr t2 h2
  rw [e1] at e2
  exact Option.some.inj e2

theorem openrouter_lock_mutual_exclusion_witness : (0 : Nat) = 0 :=
  openrouter_lock_mutual_exclusion
    (LockReach.step LockReach.init
      (LockStep.acquire 0 (lockInit Nat) rfl rfl))
    0 0 (by simp [lockInit, Function.update]) (by simp [lockInit, Function.update])

/-- C7: the imagery sampler queries exactly the coordinates at indices
0, N, 2N, … (the multiples of the stride below the path length), at most
one image per sampled point when the provider honors `limit: 1`, and for
a 20-point path with stride 15 the sampled indices are 0 and 15 only. -/
theorem sampler_stride {π : Type} (coords_list : List π) (step : Nat)
    (oracle : π → List MapImage) (hstep : 0 < step) :
    (∀ i, i ∈ pyRange 0 coords_list.length step ↔
        step ∣ i ∧ i < coords_list.length) ∧
    ((∀ c, (get_mapillary_image_near_point oracle c).length ≤ 1) →
      (get_mapillary_images_along_route coords_list step oracle).length ≤
        (pyRange 0 coords_list.length step).length) ∧
    pyRange 0 20 15 = [0, 15] := by
  refine ⟨fun i => mem_pyRange _ _ hstep i, fun hone => ?_, by decide⟩
  refine length_flatMap_le_of_single _ _ fun x hx => ?_
  cases h : coords_list[x]? with
  | none => simp [h]
  | some c => simpa [h] using hone c

theorem sampler_stride_witness : pyRange 0 20 15 = [0, 15] :=
  (sampler_stride (List.replicate 20 (0 : Nat)) 15 (fun _ => [])
    (by decide)).2.2

/-- C8: when either place name fails to geocode, `/route` answers
`{"error": "Lieu introuvable"}` with HTTP status 200, for every possible
router, imagery and classifier oracle — so before any routing or
classification work. -/
theorem get_route_place_not_found {κ π γ : Type} (O : RouteOracles κ π γ)
    (start_place end_place : String)
    (h : O.geocode start_place = none ∨ O.geocode end_place = none) :
    get_route O start_place end_place =
      ⟨200, RouteBody.err "Lieu introuvable"⟩ := by
  unfold get_route
  rcases h with h | h
  · rw [h]
  · rw [h]
    cases O.geocode start_place <;> rfl

theorem get_route_place_not_found_witness :
    get_route
      (⟨fun _ => none, [], fun _ => [], fun _ => "safe"⟩ :
        RouteOracles Nat Nat Nat) "Paris" "Lyon" =
      ⟨200, RouteBody.err "Lieu introuvable"⟩ :=
  get_route_place_not_found _ "Paris" "Lyon" (Or.inl rfl)

/-- C9 (counterexample): a 429 whose `Retry-After` value is the empty
string — not a decimal integer string — does not raise a conversion
error: the code sleeps the 5-second fallback and retries, refuting both
that every non-integer value raises and that the fallback is used only
when the header is entirely absent. -/
theorem retry_after_empty_string_counterexample :
    analyze_image (fun _ => ApiResp.httpErr 429 (some "")) 3 =
      (AnalyzeResult.tooMany, [5, 5, 5]) ∧
    (∀ ws, analyze_image (fun _ => ApiResp.httpErr 429 (some "")) 3 ≠
      (AnalyzeResult.valueError, ws)) ∧
    pyInt "" = Except.error () ∧
    waitFor (some "") = Except.ok 5 := by
  refine ⟨rfl, ?_, rfl, rfl⟩
  intro ws h
  have e : analyze_image (fun _ => ApiResp.httpErr 429 (some "")) 3 =
      (AnalyzeResult.tooMany, [5, 5, 5]) := rfl
  rw [e] at h
  injection h with hres _
  exact AnalyzeResult.noConfusion hres

/-- C9 (amended): if a 429 carries a `Retry-After` value that is
non-empty and rejected by Python's `int()` (e.g. an HTTP-date),
`analyze_image` raises the unhandled conversion error without sleeping
or retrying; the 5-second fallback is used both when the header is
absent and when its value is the empty string. -/
theorem retry_after_conversion_amended (s : String) (hne : s ≠ "")
    (hbad : pyInt s = .error ()) (oracle : Nat → ApiResp)
    (h0 : oracle 0 = .httpErr 429 (some s)) :
    analyze_image oracle 3 = (AnalyzeResult.valueError, []) ∧
    waitFor (some s) = Except.error () ∧
    ∀ ra, ra = none ∨ ra = some "" → waitFor ra = Except.ok 5 := by
  have hw : waitFor (some s) = .error () := by
    show (if s = "" then Except.ok 5 else pyInt s) = .error ()
    rw [if_neg hne]
    exact hbad
  exact ⟨analyzeGo_429_bad oracle 0 2 (some s) h0 hw, hw,
    fun ra h => by rcases h with rfl | rfl <;> rfl⟩

theorem retry_after_conversion_amended_witness :
    analyze_image
      (fun _ => ApiResp.httpErr 429 (some "Wed, 21 Oct 2015 07:28:00 GMT"))
      3 = (AnalyzeResult.valueError, []) :=
  (retry_after_conversion_amended "Wed, 21 Oct 2015 07:28:00 GMT"
    (by decide) rfl _ rfl).1

/-- C10: when both places geocode, each route entry's `"images"` field
previews the first 5 sampled images positionally — entry `j` is the
thumbnail URL of sampled image `j`, which is `none` exactly when that
image has no thumbnail URL (the same images the classification loop
skips) — while the entry's status is the classification of the full
sampled list. -/
theorem get_route_images_preview {κ π γ : Type} (O : RouteOracles κ π γ)
    (start_place end_place : String) (sc ec : κ × κ)
    (hs : O.geocode start_place = some sc)
    (he : O.geocode end_place = some ec) :
    ∃ routes, get_route O start_place end_place =
        ⟨200, RouteBody.ok routes sc ec⟩ ∧
      ∀ entry ∈ routes, ∃ p ∈ O.paths,
        entry = routeEntryOf O p ∧
        entry.status = classify_route_safety O.dec
          (get_mapillary_images_along_route p.coordinates 15 O.imagery) ∧
        entry.images.length =
          min 5 (get_mapillary_images_along_route p.coordinates 15
            O.imagery).length ∧
        ∀ j, j < 5 → entry.images[j]? =
          ((get_mapillary_images_along_route p.coordinates 15
            O.imagery)[j]?).map fun img => img.thumb_1024_url := by
  refine ⟨O.paths.map (routeEntryOf O), ?_, ?_⟩
  · unfold get_route
    rw [hs, he]
  · intro entry hentry
    rcases List.mem_map.mp hentry with ⟨p, hp, rfl⟩
    refine ⟨p, hp, rfl, rfl, ?_, ?_⟩
    · simp [routeEntryOf]
    · intro j hj
      simp [routeEntryOf, List.getElem?_take, hj]

/-- Concrete oracles exercising the preview theorem: one path, one
sampled image without a thumbnail URL. -/
def previewOracles : RouteOracles Nat Nat Nat :=
  ⟨fun _ => some (1, 2), [⟨7, [0], none, none⟩],
    fun _ => [⟨"i1", none⟩], fun _ => "safe"⟩

theorem get_route_images_preview_witness :
    ∃ routes, get_route previewOracles "Paris" "Lyon" =
        ⟨200, RouteBody.ok routes (1, 2) (1, 2)⟩ ∧
      ∀ entry ∈ routes, ∃ p ∈ previewOracles.paths,
        entry = routeEntryOf previewOracles p ∧
        entry.status = classify_route_safety previewOracles.dec
          (get_mapillary_images_along_route p.coordinates 15
            previewOracles.imagery) ∧
        entry.images.length =
          min 5 (get_mapillary_images_along_route p.coordinates 15
            previewOracles.imagery).length ∧
        ∀ j, j < 5 → entry.images[j]? =
          ((get_mapillary_images_along_route p.coordinates 15
            previewOracles.imagery)[j]?).map fun img => img.thumb_1024_url :=
  get_route_images_preview previewOracles "Paris" "Lyon" (1, 2) (1, 2) rfl rfl

end WomanAlert
